import Mathlib

/-!
Verification development for the queue-drain / PII-masking / persistence
script in `application.py`.  The script's module-level control flow is
embedded as executable Lean definitions: the masking function `mask_pii`
(a SHA-256 hex digest), the per-message body transformation, and the
drain-then-process cycle, whose external collaborators (the SQS queue,
`json.loads`, and the PostgreSQL insert outcome) are supplied as oracles.
-/

set_option maxRecDepth 40000

namespace Ingest

/-- JSON scalar values as they appear in a parsed message body.
Numbers keep their literal text: the script never computes with them
(`application.py` line 92 reads `app_version` raw and passes it on). -/
inductive JsonVal where
  | null : JsonVal
  | bool (b : Bool) : JsonVal
  | num (lit : String) : JsonVal
  | str (s : String) : JsonVal
deriving DecidableEq

/-- A parsed message body: the Python dict returned by `json.loads`,
modelled as an association list with the dict's key order. -/
abbrev JsonObj := List (String × JsonVal)

/-- Python `body.get(k, None)` / `k in body` (first matching key). -/
def getKey : JsonObj → String → Option JsonVal
  | [], _ => none
  | (k2, v) :: rest, k => if k2 = k then some v else getKey rest k

/-- Python `body[k] = v`: replace the value at an existing key
(append when the key is absent, as a dict assignment would add it). -/
def setKey : JsonObj → String → JsonVal → JsonObj
  | [], k, v => [(k, v)]
  | (k2, v2) :: rest, k, v =>
    if k2 = k then (k, v) :: rest else (k2, v2) :: setKey rest k v

/-! ### SHA-256 (the model of `hashlib.sha256`, FIPS 180-4)

All arithmetic is on `Nat` reduced modulo `2 ^ 32`; every recursion is a
library fold over `List.range`, so the whole hash evaluates inside the
kernel (`decide` / `rfl`). -/

/-- Truncate to a 32-bit word. -/
def w32 (n : Nat) : Nat := n % 4294967296

/-- Right rotation of a 32-bit word. -/
def rotr (n x : Nat) : Nat := w32 ((x >>> n) ||| (x <<< (32 - n)))

/-- Bitwise complement within 32 bits. -/
def not32 (x : Nat) : Nat := x ^^^ 4294967295

def ch (e f g : Nat) : Nat := (e &&& f) ^^^ (not32 e &&& g)

def maj (a b c : Nat) : Nat := (a &&& b) ^^^ (a &&& c) ^^^ (b &&& c)

def bsig0 (x : Nat) : Nat := rotr 2 x ^^^ rotr 13 x ^^^ rotr 22 x

def bsig1 (x : Nat) : Nat := rotr 6 x ^^^ rotr 11 x ^^^ rotr 25 x

def ssig0 (x : Nat) : Nat := rotr 7 x ^^^ rotr 18 x ^^^ (x >>> 3)

def ssig1 (x : Nat) : Nat := rotr 17 x ^^^ rotr 19 x ^^^ (x >>> 10)

/-- The 64 SHA-256 round constants, written in decimal. -/
def sha256K : List Nat :=
  [1116352408, 1899447441, 3049323471, 3921009573, 961987163,
   1508970993, 2453635748, 2870763221, 3624381080, 310598401,
   607225278, 1426881987, 1925078388, 2162078206, 2614888103,
   3248222580, 3835390401, 4022224774, 264347078, 604807628,
   770255983, 1249150122, 1555081692, 1996064986, 2554220882,
   2821834349, 2952996808, 3210313671, 3336571891, 3584528711,
   113926993, 338241895, 666307205, 773529912, 1294757372,
   1396182291, 1695183700, 1986661051, 2177026350, 2456956037,
   2730485921, 2820302411, 3259730800, 3345764771, 3516065817,
   3600352804, 4094571909, 275423344, 430227734, 506948616,
   659060556, 883997877, 958139571, 1322822218, 1537002063,
   1747873779, 1955562222, 2024104815, 2227730452, 2361852424,
   2428436474, 2756734187, 3204031479, 3329325298]

/-- The eight SHA-256 working words. -/
structure Hash8 where
  a : Nat
  b : Nat
  c : Nat
  d : Nat
  e : Nat
  f : Nat
  g : Nat
  h : Nat
deriving DecidableEq

/-- SHA-256 initial hash value, written in decimal. -/
def sha256H0 : Hash8 :=
  ⟨1779033703, 3144134277, 1013904242, 2773480762,
   1359893119, 2600822924, 528734635, 1541459225⟩

/-- One compression round. -/
def sha256Step (st : Hash8) (k w : Nat) : Hash8 :=
  let t1 := w32 (st.h + bsig1 st.e + ch st.e st.f st.g + k + w)
  let t2 := w32 (bsig0 st.a + maj st.a st.b st.c)
  ⟨w32 (t1 + t2), st.a, st.b, st.c, w32 (st.d + t1), st.e, st.f, st.g⟩

/-- Next message-schedule word, with the schedule so far most-recent-first. -/
def schedNext (rev : List Nat) : Nat :=
  w32 (ssig1 (rev.getD 1 0) + rev.getD 6 0 + ssig0 (rev.getD 14 0) + rev.getD 15 0)

/-- Compress one 64-byte chunk into the running hash. -/
def sha256Chunk (st : Hash8) (chunk : List Nat) : Hash8 :=
  let w16 := (List.range 16).map fun i =>
    (chunk.getD (4 * i) 0) <<< 24 ||| (chunk.getD (4 * i + 1) 0) <<< 16 |||
    (chunk.getD (4 * i + 2) 0) <<< 8 ||| chunk.getD (4 * i + 3) 0
  let wRev := (List.range 48).foldl (fun acc _ => schedNext acc :: acc) w16.reverse
  let fin := (sha256K.zip wRev.reverse).foldl (fun s p => sha256Step s p.1 p.2) st
  ⟨w32 (st.a + fin.a), w32 (st.b + fin.b), w32 (st.c + fin.c), w32 (st.d + fin.d),
   w32 (st.e + fin.e), w32 (st.f + fin.f), w32 (st.g + fin.g), w32 (st.h + fin.h)⟩

/-- SHA-256 padding: a single byte 128, zero bytes until the length is
56 modulo 64, then the message bit length as eight big-endian bytes. -/
def sha256Pad (m : List Nat) : List Nat :=
  let bitLen := 8 * m.length
  let k := (119 - m.length % 64) % 64
  m ++ 128 :: List.replicate k 0 ++
    (List.range 8).map (fun i => (bitLen >>> (8 * (7 - i))) % 256)

/-- SHA-256 of a byte sequence. -/
def sha256 (m : List Nat) : Hash8 :=
  let p := sha256Pad m
  ((List.range (p.length / 64)).map fun i => (p.drop (64 * i)).take 64).foldl
    sha256Chunk sha256H0

/-- Lowercase hex digit of a nibble: codepoint 48 onward for 0-9,
codepoint 87 + n for the letters a-f. -/
def hexDigit (n : Nat) : Char :=
  if n < 10 then Char.ofNat (n + 48) else Char.ofNat (n + 87)

/-- Eight lowercase hex digits of a 32-bit word, most significant first. -/
def wordHex (x : Nat) : List Char :=
  [hexDigit ((x >>> 28) % 16), hexDigit ((x >>> 24) % 16),
   hexDigit ((x >>> 20) % 16), hexDigit ((x >>> 16) % 16),
   hexDigit ((x >>> 12) % 16), hexDigit ((x >>> 8) % 16),
   hexDigit ((x >>> 4) % 16), hexDigit (x % 16)]

/-- The 64 hex characters of a digest (`.hexdigest()` on the final state). -/
def digestChars (st : Hash8) : List Char :=
  wordHex st.a ++ wordHex st.b ++ wordHex st.c ++ wordHex st.d ++
  wordHex st.e ++ wordHex st.f ++ wordHex st.g ++ wordHex st.h

/-- UTF-8 bytes of one character (the model of Python `str.encode()`). -/
def utf8Char (c : Char) : List Nat :=
  let n := c.toNat
  if n < 0x80 then [n]
  else if n < 0x800 then
    [0xC0 ||| (n >>> 6), 0x80 ||| (n &&& 0x3F)]
  else if n < 0x10000 then
    [0xE0 ||| (n >>> 12), 0x80 ||| ((n >>> 6) &&& 0x3F), 0x80 ||| (n &&& 0x3F)]
  else
    [0xF0 ||| (n >>> 18), 0x80 ||| ((n >>> 12) &&& 0x3F),
     0x80 ||| ((n >>> 6) &&& 0x3F), 0x80 ||| (n &&& 0x3F)]

/-- UTF-8 byte sequence of a string. -/
def utf8Bytes (s : String) : List Nat := (s.data.map utf8Char).flatten

/-- The function `mask_pii` (application.py lines 67-72):
`hashlib.sha256(data.encode()).hexdigest()`. -/
def mask_pii (data : String) : String := String.mk (digestChars (sha256 (utf8Bytes data)))

/-! ### The message-processing pipeline (module-level code, lines 56-123) -/

/-- One SQS message as the script consumes it: the `Body` string and the
`ReceiptHandle` needed for deletion (lines 77 and 122). -/
structure Msg where
  body : String
  receiptHandle : String
deriving DecidableEq

/-- The six parameters bound to the INSERT placeholders (lines 108-116),
in source order `user_id, device_type, masked_ip, masked_device_id,
locale, app_version`; `none` models `dict.get` returning `None`, which
the driver sends as SQL NULL. -/
structure Row where
  user_id : Option JsonVal
  device_type : Option JsonVal
  masked_ip : Option JsonVal
  masked_device_id : Option JsonVal
  locale : Option JsonVal
  app_version : Option JsonVal
deriving DecidableEq

/-- Lines 80-81 and 84-85: `if k in body: body[k] = mask_pii(body[k])`.
A non-string value under the key models the `AttributeError` that
`mask_pii` raises when `.encode()` is called on a non-string. -/
def maskField (obj : JsonObj) (k : String) : Except Unit JsonObj :=
  match getKey obj k with
  | none => Except.ok obj
  | some (JsonVal.str s) => Except.ok (setKey obj k (JsonVal.str (mask_pii s)))
  | some _ => Except.error ()

/-- Lines 108-116: the `data` tuple, read from the body after the two
in-place masking assignments (so `ip` / `device_id` hold masked values). -/
def buildRow (obj : JsonObj) : Row :=
  { user_id := getKey obj "user_id"
    device_type := getKey obj "device_type"
    masked_ip := getKey obj "ip"
    masked_device_id := getKey obj "device_id"
    locale := getKey obj "locale"
    app_version := getKey obj "app_version" }

/-- Per-message body transformation (lines 80-116): mask `device_id`,
then mask `ip`, then build the parameter tuple.  Returns the mutated
body (which line 98 prints) together with the tuple. -/
def processOneBody (obj : JsonObj) : Except Unit (JsonObj × Row) :=
  match maskField obj "device_id" with
  | Except.error e => Except.error e
  | Except.ok obj1 =>
    match maskField obj1 "ip" with
    | Except.error e => Except.error e
    | Except.ok obj2 => Except.ok (obj2, buildRow obj2)

/-- External collaborators of the loop, supplied as oracles:
`parse` models `json.loads` restricted to top-level objects (`none` is a
parse failure — or a non-dict body, which fails identically: the
uncaught exception kills the cycle), and `insertOk i` tells whether the
`cursor.execute` + `connection.commit` pair for the `i`-th message of
the accumulated list succeeds. -/
structure Env where
  parse : String → Option JsonObj
  insertOk : Nat → Bool

/-- Observable actions of one drain cycle.  `receiveCall` records one
`sqs.receive_message` call with its `MaxNumberOfMessages` argument and
its response (`none` models a response without a `Messages` key);
`insertRow` records a successful execute-and-commit of the INSERT (the
receipt handle of the source message is carried as a ghost annotation to
state per-message correspondence); `deleteMsg` records
`sqs.delete_message`; `printMasked` records the line-98 print of the
masked body. -/
inductive Event where
  | receiveCall (maxMessages : Nat) (response : Option (List Msg)) : Event
  | printMasked (obj : JsonObj) : Event
  | insertRow (receiptHandle : String) (row : Row) : Event
  | deleteMsg (receiptHandle : String) : Event
deriving DecidableEq

/-- Lines 57-63: the receive loop.  Consumes responses in order until a
response without `Messages` (modelled `none`) or the end of the oracle
list; returns the receive events and the accumulated message list. -/
def drainReceive : List (Option (List Msg)) → List Event × List Msg
  | [] => ([], [])
  | none :: _ => ([Event.receiveCall 10 none], [])
  | some batch :: rest =>
    (Event.receiveCall 10 (some batch) :: (drainReceive rest).1,
     batch ++ (drainReceive rest).2)

/-- Lines 75-123: the processing loop.  There is no try/except around
the body, so any failure (parse error, masking a non-string, a failed
execute/commit) propagates and aborts the whole loop: the Bool result
records whether the cycle died with an uncaught exception.  On success
the script prints the masked body, inserts, commits, and deletes. -/
def processMsgs (env : Env) : List Msg → Nat → List Event × Bool
  | [], _ => ([], false)
  | m :: rest, idx =>
    match env.parse m.body with
    | none => ([], true)
    | some obj =>
      match processOneBody obj with
      | Except.error _ => ([], true)
      | Except.ok (obj2, row) =>
        if env.insertOk idx then
          (Event.printMasked obj2 :: Event.insertRow m.receiptHandle row ::
            Event.deleteMsg m.receiptHandle :: (processMsgs env rest (idx + 1)).1,
           (processMsgs env rest (idx + 1)).2)
        else
          ([Event.printMasked obj2], true)

/-- One drain cycle (lines 56-123): receive until empty, then process
every accumulated message in order. -/
def runCycle (env : Env) (rs : List (Option (List Msg))) : List Event × Bool :=
  ((drainReceive rs).1 ++ (processMsgs env (drainReceive rs).2 0).1,
   (processMsgs env (drainReceive rs).2 0).2)

/-- The parameterized INSERT statement (lines 102-105), whitespace
normalised to single spaces. -/
def insert_query : String :=
  "INSERT INTO user_logins (user_id, device_type, masked_ip, masked_device_id, locale, app_version, create_date) VALUES (%s, %s, %s, %s, %s, %s, CURRENT_DATE);"

/-- Number of occurrences of a pattern in a character list. -/
def countOcc (pat : List Char) : List Char → Nat
  | [] => 0
  | c :: rest => (if pat.isPrefixOf (c :: rest) then 1 else 0) + countOcc pat rest

/-- A persisted row: the six parameters plus the `create_date` column
filled by `CURRENT_DATE` at execution time. -/
structure DbRecord where
  row : Row
  create_date : Nat
deriving DecidableEq

/-- Executing the INSERT at date `today` yields the record with
`create_date = today` (the `CURRENT_DATE` term of lines 102-105). -/
def execInsert (r : Row) (today : Nat) : DbRecord := ⟨r, today⟩

/-- External state the cycle can mutate: the store table and the queue. -/
structure SysState where
  store : List DbRecord
  queue : List Msg
deriving DecidableEq

/-- Effect of one event on the external state: receives and prints
change nothing; a committed insert appends to the table; a delete
removes the message with the given receipt handle from the queue. -/
def applyEvent (today : Nat) (s : SysState) : Event → SysState
  | Event.receiveCall _ _ => s
  | Event.printMasked _ => s
  | Event.insertRow _ r => { s with store := s.store ++ [execInsert r today] }
  | Event.deleteMsg h => { s with queue := s.queue.filter fun m => m.receiptHandle != h }

/-- Effect of a whole trace on the external state. -/
def applyTrace (today : Nat) (s : SysState) (t : List Event) : SysState :=
  t.foldl (applyEvent today) s

/-! ### Trace observers used by the claims -/

/-- Holds (is `true`) when every delete in the trace is preceded by a successful
insert carrying the same receipt handle (`ins` accumulates the handles
inserted so far). -/
def deletesCovered : List Event → List String → Bool
  | [], _ => true
  | Event.insertRow h _ :: rest, ins => deletesCovered rest (h :: ins)
  | Event.deleteMsg h :: rest, ins => ins.contains h && deletesCovered rest ins
  | _ :: rest, ins => deletesCovered rest ins

/-- Holds (is `true`) when every successful insert in the trace is followed by a
delete of the same receipt handle. -/
def insertsAcked : List Event → Bool
  | [] => true
  | Event.insertRow h _ :: rest => rest.contains (Event.deleteMsg h) && insertsAcked rest
  | _ :: rest => insertsAcked rest

def isReceiveEvent : Event → Bool
  | Event.receiveCall _ _ => true
  | _ => false

def isMutationEvent : Event → Bool
  | Event.insertRow _ _ => true
  | Event.deleteMsg _ => true
  | _ => false

def isPrintEvent : Event → Bool
  | Event.printMasked _ => true
  | _ => false

/-- Every receive call asks for at most 10 messages (non-receives pass). -/
def receiveAsks10 : Event → Bool
  | Event.receiveCall mx _ => mx == 10
  | _ => true

/-- The responses the receive loop actually consumes: the prefix of the
oracle up to and including its first empty response. -/
def upToFirstNone : List (Option (List Msg)) → List (Option (List Msg))
  | [] => []
  | none :: _ => [none]
  | some batch :: rest => some batch :: upToFirstNone rest

/-- What line 112/111 receives for a maskable field: absent stays
absent (SQL NULL), a present string is replaced by its digest. -/
def maskedOf : Option JsonVal → Option JsonVal
  | some (JsonVal.str s) => some (JsonVal.str (mask_pii s))
  | _ => none

/-- Lowercase hexadecimal digit test. -/
def isLowerHexDigit (c : Char) : Bool :=
  c.isDigit || ('a' ≤ c && c ≤ 'f')

/-- The six-element `data` tuple of lines 108-116 as a list, to state
that every column is supplied even when absent from the message. -/
def dataParams (r : Row) : List (Option JsonVal) :=
  [r.user_id, r.device_type, r.masked_ip, r.masked_device_id, r.locale, r.app_version]

/-- Row of all NULLs, default result of `rowResult` on a failed body. -/
def defaultRow : Row := ⟨none, none, none, none, none, none⟩

/-- The parameter tuple produced for a body, when processing succeeds. -/
def rowResult (obj : JsonObj) : Row :=
  match processOneBody obj with
  | Except.ok p => p.2
  | Except.error _ => defaultRow

/-- Holds (is `true`) when the body is processed without an exception. -/
def bodyOk (obj : JsonObj) : Bool :=
  match processOneBody obj with
  | Except.ok _ => true
  | Except.error _ => false

/-! ### Concrete fixtures for witnesses and counterexamples -/

/-- Fixture message: parseable body, receipt handle `h1`. -/
def msg1 : Msg := ⟨"b1", "h1"⟩

/-- Fixture message: parseable body, receipt handle `h2`. -/
def msg2 : Msg := ⟨"b2", "h2"⟩

/-- Fixture oracle: both bodies parse; the insert for the second
message (index 1) fails. -/
def env1 : Env :=
  { parse := fun b =>
      if b = "b1" then some [("user_id", JsonVal.str "u1")]
      else if b = "b2" then some [("locale", JsonVal.str "en")]
      else none
    insertOk := fun i => i == 0 }

/-- Fixture responses: one batch of two messages, then empty. -/
def rs1 : List (Option (List Msg)) := [some [msg1, msg2], none]

/-- Fixture oracle: nothing parses, inserts would succeed. -/
def env3 : Env := { parse := fun _ => none, insertOk := fun _ => true }

/-- Fixture responses: a single unparseable message. -/
def rs3 : List (Option (List Msg)) := [some [⟨"oops", "h9"⟩], none]

/-- Fixture batch of three for the batch-independence scenario:
message B is unparseable, A and C parse; all inserts succeed. -/
def msgA : Msg := ⟨"bodyA", "hA"⟩

def msgB : Msg := ⟨"bodyB", "hB"⟩

def msgC : Msg := ⟨"bodyC", "hC"⟩

def envABC : Env :=
  { parse := fun b =>
      if b = "bodyA" then some [("user_id", JsonVal.str "u1")]
      else if b = "bodyC" then some [("user_id", JsonVal.str "u3")]
      else none
    insertOk := fun _ => true }

def rsABC : List (Option (List Msg)) := [some [msgA, msgB, msgC], none]

/-- Same three-message scenario, separate copies for the reporting claim. -/
def envRep : Env :=
  { parse := fun b =>
      if b = "bodyA" then some [("user_id", JsonVal.str "u1")]
      else if b = "bodyC" then some [("user_id", JsonVal.str "u3")]
      else none
    insertOk := fun _ => true }

def rsRep : List (Option (List Msg)) := [some [msgA, msgB, msgC], none]

/-- Fixture for the create-date claim: one good message. -/
def env7 : Env :=
  { parse := fun b => if b = "b7" then some [("user_id", JsonVal.str "u1")] else none
    insertOk := fun _ => true }

def rs7 : List (Option (List Msg)) := [some [⟨"b7", "h7"⟩], none]

def st7 : SysState := ⟨[], []⟩

def row7 : Row := ⟨some (JsonVal.str "u1"), none, none, none, none, none⟩

def rec7 : DbRecord := ⟨row7, 5⟩

/-- Fixture body with `ip` present and `device_id` absent. -/
def obj5 : JsonObj := [("user_id", JsonVal.str "u1"), ("ip", JsonVal.str "1.2.3.4")]

/-- Fixture body whose `app_version` is the JSON number 3.1, not a string. -/
def obj6 : JsonObj := [("app_version", JsonVal.num "3.1")]

/-- The parameter tuple for `obj6`. -/
def row6 : Row := ⟨none, none, none, none, none, some (JsonVal.num "3.1")⟩

/-! ### Association-list and masking lemmas -/

theorem getKey_setKey_self (obj : JsonObj) (k : String) (v : JsonVal) :
    getKey (setKey obj k v) k = some v := by
  induction obj with
  | nil => simp [setKey, getKey]
  | cons p rest ih =>
    obtain ⟨k2, v2⟩ := p
    by_cases h : k2 = k
    · simp [setKey, getKey, h]
    · simp [setKey, getKey, h, ih]

theorem getKey_setKey_of_ne (obj : JsonObj) {k k2 : String} (hne : k ≠ k2) (v : JsonVal) :
    getKey (setKey obj k v) k2 = getKey obj k2 := by
  induction obj with
  | nil => simp [setKey, getKey, hne]
  | cons p rest ih =>
    obtain ⟨k3, v3⟩ := p
    by_cases h : k3 = k
    · subst h
      simp [setKey, getKey, hne]
    · by_cases h2 : k3 = k2
      · simp [setKey, getKey, h, h2, Ne.symm hne]
      · simp [setKey, getKey, h, h2, ih]

theorem maskField_ok_of_shape {obj : JsonObj} {k : String}
    (h : getKey obj k = none ∨ ∃ s, getKey obj k = some (JsonVal.str s)) :
    ∃ obj2, maskField obj k = Except.ok obj2 := by
  rcases h with h | ⟨s, h⟩
  · exact ⟨obj, by simp [maskField, h]⟩
  · exact ⟨setKey obj k (JsonVal.str (mask_pii s)), by simp [maskField, h]⟩

theorem getKey_maskField_self {obj obj2 : JsonObj} {k : String}
    (hm : maskField obj k = Except.ok obj2) :
    getKey obj2 k = maskedOf (getKey obj k) := by
  unfold maskField at hm
  cases hg : getKey obj k with
  | none =>
    rw [hg] at hm
    cases hm
    simp [maskedOf, hg]
  | some v =>
    rw [hg] at hm
    cases v with
    | str s =>
      cases hm
      simp [maskedOf, getKey_setKey_self]
    | null => cases hm
    | bool b => cases hm
    | num l => cases hm

theorem getKey_maskField_of_ne {obj obj2 : JsonObj} {k k2 : String} (hne : k ≠ k2)
    (hm : maskField obj k = Except.ok obj2) :
    getKey obj2 k2 = getKey obj k2 := by
  unfold maskField at hm
  cases hg : getKey obj k with
  | none =>
    rw [hg] at hm
    cases hm
    rfl
  | some v =>
    rw [hg] at hm
    cases v with
    | str s =>
      cases hm
      exact getKey_setKey_of_ne obj hne _
    | null => cases hm
    | bool b => cases hm
    | num l => cases hm

theorem hexDigit_hex (n : Nat) : isLowerHexDigit (hexDigit (n % 16)) = true := by
  have h : n % 16 < 16 := Nat.mod_lt _ (by omega)
  set m := n % 16 with hm
  interval_cases m <;> decide

/-! ### Claims about the masking function and the record build -/

/-- C4: for every string input, including the empty string, `mask_pii`
terminates with a 64-character lowercase-hexadecimal encoding of the
256-bit SHA-256 digest of the input's UTF-8 bytes, and is
deterministic; the FIPS 180-4 test vectors for the empty string and
`abc` pin the digest down to SHA-256 itself. -/
theorem claim_C4 (s : String) :
    mask_pii s = String.mk (digestChars (sha256 (utf8Bytes s))) ∧
    mask_pii s = mask_pii s ∧
    (mask_pii s).length = 64 ∧
    (mask_pii s).data.all isLowerHexDigit = true ∧
    mask_pii "" = "e3b0c44298fc1c149afbf4c8996fb92427ae41e4649b934ca495991b7852b855" ∧
    mask_pii "abc" = "ba7816bf8f01cfea414140de5dae2223b00361a396177a9cb410ff61f20015ad" := by
  refine ⟨rfl, rfl, rfl, ?_, by decide, by decide⟩
  show (digestChars (sha256 (utf8Bytes s))).all isLowerHexDigit = true
  simp [digestChars, wordHex, hexDigit_hex]

/-- C5: a body without `device_id` (here also without `ip`, and
symmetrically) yields a parameter tuple whose masked column is NULL
rather than an omitted column or an error; a present string field is
replaced by its digest; all six columns are always supplied. -/
theorem claim_C5 (obj : JsonObj)
    (hdev : getKey obj "device_id" = none ∨ ∃ s, getKey obj "device_id" = some (JsonVal.str s))
    (hip : getKey obj "ip" = none ∨ ∃ s, getKey obj "ip" = some (JsonVal.str s)) :
    bodyOk obj = true ∧
    (rowResult obj).masked_device_id = maskedOf (getKey obj "device_id") ∧
    (rowResult obj).masked_ip = maskedOf (getKey obj "ip") ∧
    (dataParams (rowResult obj)).length = 6 := by
  obtain ⟨obj1, h1⟩ := maskField_ok_of_shape hdev
  have hip1 : getKey obj1 "ip" = getKey obj "ip" :=
    getKey_maskField_of_ne (by decide) h1
  obtain ⟨obj2, h2⟩ := maskField_ok_of_shape (hip1 ▸ hip)
  have hpo : processOneBody obj = Except.ok (obj2, buildRow obj2) := by
    simp [processOneBody, h1, h2]
  refine ⟨by simp [bodyOk, hpo], ?_, ?_, by simp [dataParams]⟩
  · have e1 : getKey obj2 "device_id" = getKey obj1 "device_id" :=
      getKey_maskField_of_ne (by decide) h2
    have e2 : getKey obj1 "device_id" = maskedOf (getKey obj "device_id") := by
      rw [getKey_maskField_self h1]
    simp [rowResult, hpo, buildRow, e1, e2]
  · have e1 : getKey obj2 "ip" = maskedOf (getKey obj1 "ip") :=
      getKey_maskField_self h2
    simp [rowResult, hpo, buildRow, e1, hip1]

/-- C5 witness: on a body with `ip` present and `device_id` absent,
processing succeeds, the device column is NULL, and the ip column is the
digest of the raw value. -/
theorem claim_C5_witness :
    bodyOk obj5 = true ∧
    (rowResult obj5).masked_device_id = maskedOf (getKey obj5 "device_id") ∧
    (rowResult obj5).masked_ip = maskedOf (getKey obj5 "ip") ∧
    (dataParams (rowResult obj5)).length = 6 :=
  claim_C5 obj5 (Or.inl (by decide)) (Or.inr ⟨"1.2.3.4", by decide⟩)

/-- C6: whatever value (of whatever JSON type) sits under `app_version`
in the parsed body is bound to the insert parameter unchanged — no
numeric coercion — and an absent field is bound as NULL. -/
theorem claim_C6 (obj : JsonObj) (p : JsonObj × Row)
    (h : processOneBody obj = Except.ok p) :
    p.2.app_version = getKey obj "app_version" := by
  cases h1 : maskField obj "device_id" with
  | error e =>
    have hpo : processOneBody obj = Except.error e := by simp [processOneBody, h1]
    rw [hpo] at h
    cases h
  | ok obj1 =>
    cases h2 : maskField obj1 "ip" with
    | error e =>
      have hpo : processOneBody obj = Except.error e := by simp [processOneBody, h1, h2]
      rw [hpo] at h
      cases h
    | ok obj2 =>
      have hpo : processOneBody obj = Except.ok (obj2, buildRow obj2) := by
        simp [processOneBody, h1, h2]
      rw [hpo] at h
      cases h
      have e1 : getKey obj2 "app_version" = getKey obj1 "app_version" :=
        getKey_maskField_of_ne (by decide) h2
      have e2 : getKey obj1 "app_version" = getKey obj "app_version" :=
        getKey_maskField_of_ne (by decide) h1
      simp [buildRow, e1, e2]

/-- C6 witness: a numeric `app_version` literal 3.1 flows through to the
parameter tuple as the same JSON number, uncoerced. -/
theorem claim_C6_witness :
    processOneBody obj6 = Except.ok (obj6, row6) ∧
    row6.app_version = getKey obj6 "app_version" :=
  ⟨rfl, claim_C6 obj6 (obj6, row6) rfl⟩

/-! ### Claims about the insert statement and the store state -/

theorem applyTrace_store_mem {today : Nat} :
    ∀ (t : List Event) (s0 : SysState) (rec : DbRecord),
      rec ∈ (applyTrace today s0 t).store → rec ∈ s0.store ∨ rec.create_date = today := by
  intro t
  induction t with
  | nil => exact fun s0 rec h => Or.inl h
  | cons e rest ih =>
    intro s0 rec h
    rcases ih (applyEvent today s0 e) rec h with h2 | h2
    · cases e with
      | receiveCall a b => exact Or.inl h2
      | printMasked o => exact Or.inl h2
      | deleteMsg hh => exact Or.inl h2
      | insertRow hh r =>
        have h3 : rec ∈ s0.store ∨ rec = execInsert r today := by
          simpa [applyEvent] using h2
        rcases h3 with h3 | h3
        · exact Or.inl h3
        · right
          rw [h3]
          rfl
    · exact Or.inr h2

/-- C7: the INSERT statement has exactly six parameter placeholders and
fills `create_date` with `CURRENT_DATE`; executing it at date `today`
stores that date regardless of the parameter tuple, so every record a
cycle adds to the store carries the insertion-time date, never a value
from the message. -/
theorem claim_C7 :
    countOcc ("%s".data) insert_query.data = 6 ∧
    countOcc ("CURRENT_DATE".data) insert_query.data = 1 ∧
    (∀ (r r2 : Row) (today : Nat),
      (execInsert r today).create_date = today ∧
      (execInsert r today).create_date = (execInsert r2 today).create_date) ∧
    (∀ (env : Env) (rs : List (Option (List Msg))) (s0 : SysState) (today : Nat)
      (rec : DbRecord), rec ∈ (applyTrace today s0 (runCycle env rs).1).store →
        rec ∈ s0.store ∨ rec.create_date = today) := by
  refine ⟨by decide, by decide, fun r r2 today => ⟨rfl, rfl⟩, ?_⟩
  exact fun env rs s0 today rec h => applyTrace_store_mem _ s0 rec h

/-- C7 witness: the record produced by a concrete cycle at date 5 is in
the store and carries create_date 5. -/
theorem claim_C7_witness :
    rec7 ∈ (applyTrace 5 st7 (runCycle env7 rs7).1).store ∧
    (rec7 ∈ st7.store ∨ rec7.create_date = 5) :=
  ⟨by decide, claim_C7.2.2.2 env7 rs7 st7 5 rec7 (by decide)⟩

/-! ### Trace-shape lemmas for the cycle claims -/

theorem bool_not_true {b : Bool} (h : (!b) = true) : b = false := by
  cases b
  · rfl
  · cases h

theorem mem_of_idx {α : Type} : ∀ (l : List α) (j : Nat) (a : α), l[j]? = some a → a ∈ l := by
  intro l
  induction l with
  | nil => intro j a h; simp at h
  | cons x xs ih =>
    intro j a h
    cases j with
    | zero =>
      simp at h
      exact h ▸ List.mem_cons_self x xs
    | succ j2 => exact List.mem_cons_of_mem x (ih j2 a (by simpa using h))

theorem drainReceive_all_receive (rs : List (Option (List Msg))) :
    ((drainReceive rs).1).all isReceiveEvent = true := by
  induction rs with
  | nil => rfl
  | cons r rest ih =>
    cases r with
    | none => rfl
    | some batch => simpa [drainReceive, isReceiveEvent] using ih

theorem drainReceive_asks10 (rs : List (Option (List Msg))) :
    ((drainReceive rs).1).all receiveAsks10 = true := by
  induction rs with
  | nil => rfl
  | cons r rest ih =>
    cases r with
    | none => rfl
    | some batch => simpa [drainReceive, receiveAsks10] using ih

theorem drainReceive_eq_upTo (rs : List (Option (List Msg))) :
    (drainReceive rs).1 = (upToFirstNone rs).map (fun r => Event.receiveCall 10 r) := by
  induction rs with
  | nil => rfl
  | cons r rest ih =>
    cases r with
    | none => rfl
    | some batch => simp [drainReceive, upToFirstNone, ih]

theorem processMsgs_no_receive (env : Env) :
    ∀ (msgs : List Msg) (idx : Nat),
      ((processMsgs env msgs idx).1).all (fun e => !isReceiveEvent e) = true := by
  intro msgs
  induction msgs with
  | nil => intro idx; rfl
  | cons m rest ih =>
    intro idx
    cases hp : env.parse m.body with
    | none => simp [processMsgs, hp]
    | some obj =>
      cases hb : processOneBody obj with
      | error e => simp [processMsgs, hp, hb]
      | ok p =>
        obtain ⟨obj2, row⟩ := p
        cases hio : env.insertOk idx with
        | false => simp [processMsgs, hp, hb, hio, isReceiveEvent]
        | true =>
          simp [processMsgs, hp, hb, hio, isReceiveEvent]
          intro x hx
          simpa [isReceiveEvent] using List.all_eq_true.mp (ih (idx + 1)) x hx

theorem receiveAsks10_of_not_receive {e : Event} (h : isReceiveEvent e = false) :
    receiveAsks10 e = true := by
  cases e <;> simp_all [isReceiveEvent, receiveAsks10]

theorem not_mem_receives {l : List Event} {e : Event}
    (hl : l.all isReceiveEvent = true) (he : isReceiveEvent e = false) : e ∉ l := by
  intro hmem
  have h2 := List.all_eq_true.mp hl e hmem
  rw [he] at h2
  cases h2

theorem dropWhile_append_of_all {α : Type} {p : α → Bool} :
    ∀ (l t : List α), l.all p = true →
      List.dropWhile p (l ++ t) = List.dropWhile p t := by
  intro l t
  induction l with
  | nil => intro h; rfl
  | cons a l2 ih =>
    intro h
    simp only [List.all_cons, Bool.and_eq_true] at h
    simp [List.dropWhile_cons, h.1, ih h.2]

theorem dropWhile_eq_self_of_none {α : Type} {p : α → Bool} :
    ∀ (t : List α), t.all (fun e => !p e) = true → List.dropWhile p t = t := by
  intro t
  induction t with
  | nil => intro h; rfl
  | cons a l ih =>
    intro h
    simp only [List.all_cons, Bool.and_eq_true, Bool.not_eq_true'] at h
    simp [List.dropWhile_cons, h.1]

theorem deletesCovered_append_receives :
    ∀ (l t : List Event) (ins : List String), l.all isReceiveEvent = true →
      deletesCovered (l ++ t) ins = deletesCovered t ins := by
  intro l
  induction l with
  | nil => intro t ins h; rfl
  | cons e l2 ih =>
    intro t ins h
    simp only [List.all_cons, Bool.and_eq_true] at h
    cases e with
    | receiveCall a b => simpa [deletesCovered] using ih t ins h.2
    | printMasked o => simp [isReceiveEvent] at h
    | insertRow a r => simp [isReceiveEvent] at h
    | deleteMsg a => simp [isReceiveEvent] at h

theorem insertsAcked_append_receives :
    ∀ (l t : List Event), l.all isReceiveEvent = true →
      insertsAcked (l ++ t) = insertsAcked t := by
  intro l
  induction l with
  | nil => intro t h; rfl
  | cons e l2 ih =>
    intro t h
    simp only [List.all_cons, Bool.and_eq_true] at h
    cases e with
    | receiveCall a b => simpa [insertsAcked] using ih t h.2
    | printMasked o => simp [isReceiveEvent] at h
    | insertRow a r => simp [isReceiveEvent] at h
    | deleteMsg a => simp [isReceiveEvent] at h

theorem processMsgs_deletesCovered (env : Env) :
    ∀ (msgs : List Msg) (idx : Nat) (ins : List String),
      deletesCovered (processMsgs env msgs idx).1 ins = true := by
  intro msgs
  induction msgs with
  | nil => intro idx ins; rfl
  | cons m rest ih =>
    intro idx ins
    cases hp : env.parse m.body with
    | none => simp [processMsgs, hp, deletesCovered]
    | some obj =>
      cases hb : processOneBody obj with
      | error e => simp [processMsgs, hp, hb, deletesCovered]
      | ok p =>
        obtain ⟨obj2, row⟩ := p
        cases hio : env.insertOk idx with
        | false => simp [processMsgs, hp, hb, hio, deletesCovered]
        | true => simp [processMsgs, hp, hb, hio, deletesCovered, List.contains_cons, ih]

theorem processMsgs_insertsAcked (env : Env) :
    ∀ (msgs : List Msg) (idx : Nat), insertsAcked (processMsgs env msgs idx).1 = true := by
  intro msgs
  induction msgs with
  | nil => intro idx; rfl
  | cons m rest ih =>
    intro idx
    cases hp : env.parse m.body with
    | none => simp [processMsgs, hp, insertsAcked]
    | some obj =>
      cases hb : processOneBody obj with
      | error e => simp [processMsgs, hp, hb, insertsAcked]
      | ok p =>
        obtain ⟨obj2, row⟩ := p
        cases hio : env.insertOk idx with
        | false => simp [processMsgs, hp, hb, hio, insertsAcked]
        | true => simp [processMsgs, hp, hb, hio, insertsAcked, List.contains_cons, ih]

theorem processMsgs_no_delete_of_insertFail (env : Env) :
    ∀ (msgs : List Msg) (idx : Nat),
      (msgs.map Msg.receiptHandle).Nodup →
      ∀ (j : Nat) (m : Msg), msgs[j]? = some m → env.insertOk (idx + j) = false →
        Event.deleteMsg m.receiptHandle ∉ (processMsgs env msgs idx).1 := by
  intro msgs
  induction msgs with
  | nil => intro idx hnd j m hj hfail; simp at hj
  | cons m0 rest ih =>
    intro idx hnd j m hj hfail
    cases hp : env.parse m0.body with
    | none => simp [processMsgs, hp]
    | some obj =>
      cases hb : processOneBody obj with
      | error e => simp [processMsgs, hp, hb]
      | ok p =>
        obtain ⟨obj2, row⟩ := p
        cases hio : env.insertOk idx with
        | false => simp [processMsgs, hp, hb, hio]
        | true =>
          cases j with
          | zero =>
            rw [Nat.add_zero, hio] at hfail
            cases hfail
          | succ j2 =>
            simp only [List.map_cons, List.nodup_cons] at hnd
            have hj2 : rest[j2]? = some m := by simpa using hj
            have hmem : m ∈ rest := mem_of_idx rest j2 m hj2
            have hne : m.receiptHandle ≠ m0.receiptHandle := by
              intro he
              apply hnd.1
              rw [← he]
              exact List.mem_map_of_mem Msg.receiptHandle hmem
            have hfail2 : env.insertOk (idx + 1 + j2) = false := by
              have harith : idx + 1 + j2 = idx + (j2 + 1) := by omega
              rw [harith]
              exact hfail
            have hnotin := ih (idx + 1) hnd.2 j2 m hj2 hfail2
            simp [processMsgs, hp, hb, hio, List.mem_cons, hne, hnotin]

theorem processMsgs_no_events_of_parse_fail (env : Env) :
    ∀ (msgs : List Msg) (idx : Nat),
      (msgs.map Msg.receiptHandle).Nodup →
      ∀ (j : Nat) (m : Msg), msgs[j]? = some m → env.parse m.body = none →
        (∀ row : Row, Event.insertRow m.receiptHandle row ∉ (processMsgs env msgs idx).1) ∧
        Event.deleteMsg m.receiptHandle ∉ (processMsgs env msgs idx).1 := by
  intro msgs
  induction msgs with
  | nil => intro idx hnd j m hj hparse; simp at hj
  | cons m0 rest ih =>
    intro idx hnd j m hj hparse
    cases hp : env.parse m0.body with
    | none => simp [processMsgs, hp]
    | some obj =>
      cases hb : processOneBody obj with
      | error e => simp [processMsgs, hp, hb]
      | ok p =>
        obtain ⟨obj2, row0⟩ := p
        cases j with
        | zero =>
          have hm : m = m0 := by simpa using hj.symm
          rw [hm, hp] at hparse
          cases hparse
        | succ j2 =>
          simp only [List.map_cons, List.nodup_cons] at hnd
          have hj2 : rest[j2]? = some m := by simpa using hj
          have hmem : m ∈ rest := mem_of_idx rest j2 m hj2
          have hne : m.receiptHandle ≠ m0.receiptHandle := by
            intro he
            apply hnd.1
            rw [← he]
            exact List.mem_map_of_mem Msg.receiptHandle hmem
          have hrec := ih (idx + 1) hnd.2 j2 m hj2 hparse
          cases hio : env.insertOk idx with
          | false =>
            constructor
            · intro row
              simp [processMsgs, hp, hb, hio]
            · simp [processMsgs, hp, hb, hio]
          | true =>
            constructor
            · intro row
              have hnotin := hrec.1 row
              simp [processMsgs, hp, hb, hio, List.mem_cons, hne, hnotin]
            · have hnotin := hrec.2
              simp [processMsgs, hp, hb, hio, List.mem_cons, hne, hnotin]

/-! ### Claims about the cycle -/

/-- C1: in every cycle trace, every queue delete is preceded by a
successful insert-and-commit carrying the same receipt handle, every
successful insert is followed by the delete of its message, and when
the insert for a message fails its delete never happens (the uncaught
exception stops the loop first). -/
theorem claim_C1 (env : Env) (rs : List (Option (List Msg))) :
    deletesCovered (runCycle env rs).1 [] = true ∧
    insertsAcked (runCycle env rs).1 = true ∧
    (((drainReceive rs).2.map Msg.receiptHandle).Nodup →
      ∀ (idx : Nat) (m : Msg), (drainReceive rs).2[idx]? = some m →
        env.insertOk idx = false →
        Event.deleteMsg m.receiptHandle ∉ (runCycle env rs).1) := by
  refine ⟨?_, ?_, ?_⟩
  · show deletesCovered
      ((drainReceive rs).1 ++ (processMsgs env (drainReceive rs).2 0).1) [] = true
    rw [deletesCovered_append_receives _ _ [] (drainReceive_all_receive rs)]
    exact processMsgs_deletesCovered env _ 0 []
  · show insertsAcked
      ((drainReceive rs).1 ++ (processMsgs env (drainReceive rs).2 0).1) = true
    rw [insertsAcked_append_receives _ _ (drainReceive_all_receive rs)]
    exact processMsgs_insertsAcked env _ 0
  · intro hnd idx m hidx hfail hmem
    have hmem2 : Event.deleteMsg m.receiptHandle ∈
        (drainReceive rs).1 ++ (processMsgs env (drainReceive rs).2 0).1 := hmem
    rcases List.mem_append.mp hmem2 with h | h
    · exact absurd h (not_mem_receives (drainReceive_all_receive rs) rfl)
    · exact processMsgs_no_delete_of_insertFail env _ 0 hnd idx m hidx
        (by simpa using hfail) h

/-- C1 witness: a cycle whose second message's insert fails (receipt
handles distinct); that message's delete never happens. -/
theorem claim_C1_witness :
    ((drainReceive rs1).2.map Msg.receiptHandle).Nodup ∧
    Event.deleteMsg "h2" ∉ (runCycle env1 rs1).1 := by
  refine ⟨by decide, ?_⟩
  exact (claim_C1 env1 rs1).2.2 (by decide) 1 msg2 (by decide) (by decide)

/-- C3: a message whose body fails to parse is never inserted and never
deleted (its processing dies before either call). -/
theorem claim_C3 (env : Env) (rs : List (Option (List Msg)))
    (hnd : ((drainReceive rs).2.map Msg.receiptHandle).Nodup)
    (idx : Nat) (m : Msg) (hidx : (drainReceive rs).2[idx]? = some m)
    (hparse : env.parse m.body = none) :
    (∀ row : Row, Event.insertRow m.receiptHandle row ∉ (runCycle env rs).1) ∧
    Event.deleteMsg m.receiptHandle ∉ (runCycle env rs).1 := by
  have hrec := processMsgs_no_events_of_parse_fail env (drainReceive rs).2 0 hnd idx m hidx hparse
  constructor
  · intro row hmem
    have hmem2 : Event.insertRow m.receiptHandle row ∈
        (drainReceive rs).1 ++ (processMsgs env (drainReceive rs).2 0).1 := hmem
    rcases List.mem_append.mp hmem2 with h | h
    · exact absurd h (not_mem_receives (drainReceive_all_receive rs) rfl)
    · exact hrec.1 row h
  · intro hmem
    have hmem2 : Event.deleteMsg m.receiptHandle ∈
        (drainReceive rs).1 ++ (processMsgs env (drainReceive rs).2 0).1 := hmem
    rcases List.mem_append.mp hmem2 with h | h
    · exact absurd h (not_mem_receives (drainReceive_all_receive rs) rfl)
    · exact hrec.2 h

/-- C3 witness: a one-message cycle whose body does not parse; the
message is never deleted. -/
theorem claim_C3_witness :
    env3.parse "oops" = none ∧ Event.deleteMsg "h9" ∉ (runCycle env3 rs3).1 := by
  refine ⟨rfl, ?_⟩
  exact (claim_C3 env3 rs3 (by decide) 0 ⟨"oops", "h9"⟩ (by decide) rfl).2

/-- C9: every receive call of a cycle precedes every processing event
(after the leading receive block no receive occurs), every receive asks
for 10 messages, and the receive calls consume exactly the oracle's
responses up to and including the first empty one. -/
theorem claim_C9 (env : Env) (rs : List (Option (List Msg))) :
    ((runCycle env rs).1.dropWhile isReceiveEvent).all (fun e => !isReceiveEvent e) = true ∧
    (runCycle env rs).1.all receiveAsks10 = true ∧
    (runCycle env rs).1.filter isReceiveEvent =
      (upToFirstNone rs).map (fun r => Event.receiveCall 10 r) := by
  have hrecv := drainReceive_all_receive rs
  have hproc := processMsgs_no_receive env (drainReceive rs).2 0
  refine ⟨?_, ?_, ?_⟩
  · show (((drainReceive rs).1 ++ (processMsgs env (drainReceive rs).2 0).1).dropWhile
      isReceiveEvent).all (fun e => !isReceiveEvent e) = true
    rw [dropWhile_append_of_all _ _ hrecv, dropWhile_eq_self_of_none _ hproc]
    exact hproc
  · show ((drainReceive rs).1 ++ (processMsgs env (drainReceive rs).2 0).1).all
      receiveAsks10 = true
    rw [List.all_append, drainReceive_asks10 rs, Bool.true_and]
    refine List.all_eq_true.mpr fun e he => ?_
    exact receiveAsks10_of_not_receive
      (bool_not_true (List.all_eq_true.mp hproc e he))
  · show ((drainReceive rs).1 ++ (processMsgs env (drainReceive rs).2 0).1).filter
      isReceiveEvent = (upToFirstNone rs).map (fun r => Event.receiveCall 10 r)
    rw [List.filter_append]
    have h1 : ((drainReceive rs).1).filter isReceiveEvent = (drainReceive rs).1 :=
      List.filter_eq_self.mpr (List.all_eq_true.mp hrecv)
    have h2 : ((processMsgs env (drainReceive rs).2 0).1).filter isReceiveEvent = [] := by
      refine List.filter_eq_nil_iff.mpr fun e he => ?_
      have h3 := bool_not_true (List.all_eq_true.mp hproc e he)
      simp [h3]
    rw [h1, h2, List.append_nil, drainReceive_eq_upTo]

/-- C10: a cycle whose first receive returns no messages performs no
insert and no delete: the store and the queue are unchanged. -/
theorem claim_C10 (env : Env) (rest : List (Option (List Msg)))
    (s : SysState) (today : Nat) :
    applyTrace today s (runCycle env (none :: rest)).1 = s ∧
    (runCycle env (none :: rest)).1.all (fun e => !isMutationEvent e) = true :=
  ⟨rfl, rfl⟩

/-- C2 fails on the code: in the batch A, B, C where only B is
unparseable, the cycle processes A, dies on B with an uncaught
exception, and never touches C — C is neither inserted nor deleted,
although every insert would have succeeded. -/
theorem claim_C2 :
    runCycle envABC rsABC =
      ([Event.receiveCall 10 (some [msgA, msgB, msgC]), Event.receiveCall 10 none,
        Event.printMasked [("user_id", JsonVal.str "u1")],
        Event.insertRow "hA" ⟨some (JsonVal.str "u1"), none, none, none, none, none⟩,
        Event.deleteMsg "hA"], true) ∧
    (runCycle envABC rsABC).1.contains (Event.deleteMsg "hC") = false ∧
    (runCycle envABC rsABC).1.contains
      (Event.insertRow "hC" ⟨some (JsonVal.str "u3"), none, none, none, none, none⟩) = false := by
  refine ⟨by decide, by decide, by decide⟩

/-- C8 fails on the code: the same three-message cycle emits no counts
at all — its only user-visible output is the per-message masked-body
print for A (the script has no reporting of processed, skipped or
failed messages, and it even aborts before reaching C). -/
theorem claim_C8 :
    runCycle envRep rsRep =
      ([Event.receiveCall 10 (some [msgA, msgB, msgC]), Event.receiveCall 10 none,
        Event.printMasked [("user_id", JsonVal.str "u1")],
        Event.insertRow "hA" ⟨some (JsonVal.str "u1"), none, none, none, none, none⟩,
        Event.deleteMsg "hA"], true) ∧
    (runCycle envRep rsRep).1.filter isPrintEvent =
      [Event.printMasked [("user_id", JsonVal.str "u1")]] := by
  refine ⟨by decide, by decide⟩

end Ingest
